import Mathlib

/-!
Verification of the adaptive-fractionation dose engine.

Shallow embedding of the repository's two engine files:
* `3D_adaptive_fractionation.py` (functions `BED_calc0`, `probdist`, `std_calc`,
  `value_eval`, `whole_plan`), and
* `src/adaptfx/reinforce_oar.py` (function `min_oar_bed`).

Floating-point arithmetic is idealised over `ℝ`; `numpy` vector operations are
embedded componentwise; `np.sqrt` becomes `Real.sqrt`.  Helper functions of the
`adaptfx` package that are not part of the given sources (`convert_to_physical`,
`step_round`, `bed_calc0`) are modelled from the spec, as marked in their
doc comments.
-/

open scoped Classical

set_option maxRecDepth 8000

/-- Embeds `BED_calc0(dose, ab, sparing)` (3D_adaptive_fractionation.py, lines
132-152): `BED = sparing*dose*(1+(sparing*dose)/ab)`.  The same formula is
`afx.bed_calc0` of the reinforce module (spec section 4.1). -/
noncomputable def BED_calc0 (dose ab sparing : ℝ) : ℝ :=
  sparing * dose * (1 + (sparing * dose) / ab)

/-- Embeds line 278 of `value_eval`: the OAR-implied closed-form dose
`(-sf+sqrt(sf**2+4*sf**2*(bound_OAR-BED_OAR)/abn))/(2*sf**2/abn)`. -/
noncomputable def best_action_BED (bound_OAR BED_OAR abn sf : ℝ) : ℝ :=
  (-sf + Real.sqrt (sf ^ 2 + 4 * sf ^ 2 * (bound_OAR - BED_OAR) / abn)) / (2 * sf ^ 2 / abn)

/-- Embeds line 279 of `value_eval`: the tumor-implied closed-form dose
`(-1+sqrt(1+4*1*(bound_tumor-BED_tumor)/abt))/(2*1**2/abt)`. -/
noncomputable def best_action_tumor (bound_tumor BED_tumor abt : ℝ) : ℝ :=
  (-1 + Real.sqrt (1 + 4 * (bound_tumor - BED_tumor) / abt)) / (2 / abt)

/-- Embeds the decision branch of `value_eval` for the final fraction
(`frac_state == fraction` and `fraction == 5`, lines 275-289).  Returns the
chosen physical dose together with the `penalty` flag.  In the source the
dose is stored as `actual_policy = best_action*10` and divided by 10 again on
return (line 328); the net dose is returned here directly. -/
noncomputable def final_branch (BED_OAR BED_tumor bound_OAR bound_tumor abt abn sf_end : ℝ) :
    ℝ × ℝ :=
  let best_action :=
    min (best_action_BED bound_OAR BED_OAR abn sf_end) (best_action_tumor bound_tumor BED_tumor abt)
  if BED_OAR > bound_OAR ∨ BED_tumor > bound_tumor then (0, -100000000000)
  else if best_action < 0 then (0, 0)
  else (best_action, 0)

/-- Embeds one `(tumor_value, OAR_value, sf)`-cell of the terminal layer of
`value_eval` (`frac_state == 5`, lines 302-314); the numpy vector computation
over the sparing-factor axis is embedded componentwise at sparing factor `s`.
Returns `(best_action, value)` where `value` is the cell written into
`Values[index][tumor_index][OAR_index]`, with
`end_penalty = (future_tumor-bound_tumor).clip(max=0)*underdosepenalty` and
`underdosepenalty = 10`. -/
noncomputable def terminal_cell (tumor_value OAR_value bound_tumor bound_OAR abt abn s : ℝ) :
    ℝ × ℝ :=
  let b0 := min (best_action_BED bound_OAR OAR_value abn s)
    (best_action_tumor bound_tumor tumor_value abt)
  let penalty : ℝ := if OAR_value > bound_OAR ∨ tumor_value > bound_tumor then -100000000000 else 0
  let b1 : ℝ := if OAR_value > bound_OAR ∨ tumor_value > bound_tumor then 0 else b0
  let best_action := if b1 < 0 then 0 else b1
  let future_tumor := tumor_value + BED_calc0 best_action abt 1
  let end_penalty := min (future_tumor - bound_tumor) 0 * 10
  (best_action, end_penalty - BED_calc0 best_action abn s + penalty)

/-- Modelled from the spec: `afx.convert_to_physical` is not under `src/`; spec
section 4.4 gives the closed form `d = (-sf + sqrt(sf^2 + 4 sf^2 B/ab))/(2 sf^2/ab)`
inverting `bed(d) = B`, at sparing factor 1 (as used for the tumor budget). -/
noncomputable def convert_to_physical (B ab : ℝ) : ℝ :=
  (-1 + Real.sqrt (1 + 4 * B / ab)) / (2 / ab)

/-- Embeds lines 44-55 and 104-111 of `min_oar_bed` (reinforce_oar.py)
specialised to `fraction == number_of_fractions`: the remaining-budget dose
`convert_to_physical(tumor_goal - accumulated, abt)` clamped against the
(first mutated) `min_dose`/`max_dose` bounds.  `maxd = -1` is the sentinel for
automatic derivation; `mind`/`maxd` are the configured bounds and `step` is
`sets.dose_stepsize`. -/
noncomputable def min_oar_last_dose (goal acc abt mind maxd step : ℝ) : ℝ :=
  let remaining_bed := goal - acc
  let max_physical_dose := convert_to_physical remaining_bed abt
  let maxd1 := if maxd = -1 then max_physical_dose
    else if maxd > max_physical_dose then max_physical_dose else maxd
  let mind1 := if mind > maxd1 then maxd1 - step else mind
  let best_actions := convert_to_physical remaining_bed abt
  let b1 := if best_actions < mind1 then mind1 else best_actions
  if b1 > maxd1 then maxd1 else b1

/-- Return record of one `value_eval` call (lines 324-328): chosen dose,
updated accumulated BEDs and the delivered per-session BEDs.  The dose search
itself (lines 222-323) is abstracted as the function `choose` of the
fraction number, the accumulated BEDs and the sparing-factor history; in the
source the dose is carried as `actual_policy` (ten times the dose) and all
returned quantities divide it by 10 again. -/
structure EvalOut where
  policy : ℝ
  accumulated_tumor : ℝ
  accumulated_OAR : ℝ
  tumor_dose : ℝ
  oar_dose : ℝ

/-- Embeds the return computation of `value_eval` (lines 324-328):
`tumor_dose = BED_calc0(policy, abt)`, `OAR_dose = BED_calc0(policy, abn,
sparing_factors[-1])` and the accumulated sums. -/
noncomputable def value_eval_return (choose : ℕ → ℝ → ℝ → List ℝ → ℝ) (abt abn : ℝ)
    (fraction : ℕ) (BED_OAR BED_tumor : ℝ) (sfs : List ℝ) : EvalOut :=
  let d := choose fraction BED_OAR BED_tumor sfs
  { policy := d
    accumulated_tumor := BED_calc0 d abt 1 + BED_tumor
    accumulated_OAR := BED_calc0 d abn (sfs.getLastD 0) + BED_OAR
    tumor_dose := BED_calc0 d abt 1
    oar_dose := BED_calc0 d abn (sfs.getLastD 0) }

/-- Per-course state of `whole_plan`: the three per-session record lists and
the threaded accumulated BEDs. -/
structure PlanOut where
  tumor_doses : List ℝ
  oar_doses : List ℝ
  physical_doses : List ℝ
  accumulated_OAR : ℝ
  accumulated_tumor : ℝ

/-- Embeds the loop of `whole_plan` (lines 363-373): session `i` (0-based,
`looper`) calls `value_eval` with fraction `i+1`, the accumulated BEDs so far
and the history slice `sparing_factors[0:i+2]`, and stores the delivered
doses.  `r` counts the sessions still to run. -/
noncomputable def plan_aux (choose : ℕ → ℝ → ℝ → List ℝ → ℝ) (abt abn : ℝ) (sfs : List ℝ) :
    ℕ → ℕ → ℝ → ℝ → PlanOut
  | _, 0, accO, accT =>
    { tumor_doses := [], oar_doses := [], physical_doses := [],
      accumulated_OAR := accO, accumulated_tumor := accT }
  | i, r + 1, accO, accT =>
    let e := value_eval_return choose abt abn (i + 1) accO accT (sfs.take (i + 2))
    let p := plan_aux choose abt abn sfs (i + 1) r e.accumulated_OAR e.accumulated_tumor
    { tumor_doses := e.tumor_dose :: p.tumor_doses
      oar_doses := e.oar_dose :: p.oar_doses
      physical_doses := e.policy :: p.physical_doses
      accumulated_OAR := p.accumulated_OAR
      accumulated_tumor := p.accumulated_tumor }

/-- Embeds `whole_plan` (lines 330-373): five sessions starting from zero
accumulated BEDs; returns `[tumor_doses, OAR_doses, physical_doses]`. -/
noncomputable def whole_plan (choose : ℕ → ℝ → ℝ → List ℝ → ℝ) (sfs : List ℝ)
    (abt abn : ℝ) : List ℝ × List ℝ × List ℝ :=
  let p := plan_aux choose abt abn sfs 0 5 0 0
  (p.tumor_doses, p.oar_doses, p.physical_doses)

/-- Accumulated `(OAR, tumor)` BEDs carried by `whole_plan` after its first
`k` sessions. -/
noncomputable def plan_acc (choose : ℕ → ℝ → ℝ → List ℝ → ℝ) (sfs : List ℝ)
    (abt abn : ℝ) (k : ℕ) : ℝ × ℝ :=
  let p := plan_aux choose abt abn sfs 0 k 0 0
  (p.accumulated_OAR, p.accumulated_tumor)

/-- Embeds the sparing-factor grid `np.arange(0.01, 1.31, 0.01)` (lines 74 and
230): 130 points `0.01 + 0.01*k`. -/
noncomputable def sf_grid : List ℝ :=
  (List.range 130).map (fun k : ℕ => 1 / 100 + (k : ℝ) / 100)

/-- Embeds `probdist(X)` (lines 57-77): for each grid point `i` the bin
probability `X.cdf(i+0.004999999999999999999) - X.cdf(i-0.005)`.  The two
offset literals denote the same IEEE double (the one nearest 0.005), so both
are embedded as `1/200`; the distribution enters only through its CDF, which
is abstracted as the function `cdf`. -/
noncomputable def probdist (cdf : ℝ → ℝ) : List ℝ :=
  sf_grid.map (fun i => cdf (i + 1 / 200) - cdf (i - 1 / 200))

/-- Embeds lines 230-232 of `value_eval`: the grid `sf` and the probabilities
`prob` are filtered jointly by the mask `prob > 0.00001`, keeping the
`(sparing factor, probability)` correspondence. -/
noncomputable def retained_pairs (cdf : ℝ → ℝ) : List (ℝ × ℝ) :=
  (sf_grid.zip (probdist cdf)).filter (fun p => decide ((1:ℝ) / 100000 < p.2))

/-- Embeds `np.argmax` over a list: index of the first occurrence of the
maximum (ties keep the earliest index).  Used by `std_calc` (line 104) and by
the action selections `Vs.argmax(axis=0)` (3D variant, lines 262 and 274) and
`vs.argmax(axis=0)` (reinforce variant, line 102). -/
noncomputable def argmaxIdx : List ℝ → ℕ
  | [] => 0
  | [_] => 0
  | x :: y :: t =>
    if (y :: t).getD (argmaxIdx (y :: t)) 0 ≤ x then 0 else argmaxIdx (y :: t) + 1

/-- Embeds the action selection `actionspace[vs.argmax(axis=0)]`
(reinforce_oar.py line 102; in the 3D variant the argmax index itself encodes
the dose since `actionspace = np.arange(0, 22.3, 0.1)`). -/
noncomputable def select_dose (actionspace vs : List ℝ) : ℝ :=
  actionspace.getD (argmaxIdx vs) 0

/-- Embeds the candidate-variance grid `np.arange(0.00001, 0.25, 0.00001)`
(line 100): 24999 points `0.00001 + 0.00001*k`. -/
@[irreducible] noncomputable def var_values : List ℝ :=
  (List.range 24999).map (fun k : ℕ => 1 / 100000 + (k : ℝ) / 100000)

/-- Embeds `np.var(measured_data)`: the population variance (mean of squared
deviations from the mean). -/
noncomputable def np_var (l : List ℝ) : ℝ :=
  (l.map (fun x => (x - l.sum / l.length) ^ 2)).sum / l.length

/-- Embeds line 103 of `std_calc`: the un-normalized posterior likelihood
`value**(-alpha-1)/value**(n/2)*exp(-beta/value)*exp(-np.var(data)*n/(2*value))`
evaluated at candidate variance `v`, with `n` the number of observations and
`sv` the sample variance. -/
noncomputable def likelihood (alpha beta n sv v : ℝ) : ℝ :=
  v ^ (-alpha - 1) / v ^ (n / 2) * Real.exp (-beta / v) * Real.exp (-sv * n / (2 * v))

/-- The spec's statement of the same density,
`v^(-alpha-1) * v^(-n/2) * exp(-beta/v) * exp(-n*sample_var/(2v))`, written
with a negative power instead of a division; compared against `likelihood`
below. -/
noncomputable def posterior_density (alpha beta n sv v : ℝ) : ℝ :=
  v ^ (-alpha - 1) * v ^ (-(n / 2)) * Real.exp (-beta / v) * Real.exp (-(n * sv) / (2 * v))

/-- Embeds `std_calc(measured_data, alpha, beta)` (lines 79-105): the square
root of the grid variance whose likelihood is maximal (`np.argmax` picks the
first maximizer); the locals `n` and `likelihood_values` are inlined. -/
noncomputable def std_calc (measured_data : List ℝ) (alpha beta : ℝ) : ℝ :=
  Real.sqrt (var_values.getD
    (argmaxIdx (var_values.map
      (likelihood alpha beta (measured_data.length : ℝ) (np_var measured_data)))) 0)

/-- Modelled from the spec: `afx.step_round` is not under `src/`; the source
comment at line 60 says "step_round rounds down so we include the maxdose",
so it rounds its argument down to a multiple of the step. -/
noncomputable def step_round (x s : ℝ) : ℝ :=
  (⌊x / s⌋ : ℝ) * s

/-- Embeds `np.arange(start, stop, step)` for positive step:
`max(0, ceil((stop-start)/step))` points `start + k*step`. -/
noncomputable def np_arange (start stop step : ℝ) : List ℝ :=
  (List.range (⌈(stop - start) / step⌉.toNat)).map (fun k : ℕ => start + (k : ℝ) * step)

/-- Embeds lines 47-52 of `min_oar_bed`: the `-1` sentinel derives `max_dose`
from the remaining-budget dose `mp`, and a configured `max_dose` above `mp`
is reduced to `mp`. -/
noncomputable def clamped_max (maxd mp : ℝ) : ℝ :=
  if maxd = -1 then mp else if maxd > mp then mp else maxd

/-- Embeds lines 54-55 of `min_oar_bed`: a configured `min_dose` above the
clamped maximum is replaced by `max_dose - dose_stepsize`. -/
noncomputable def adjusted_min (mind cmax step : ℝ) : ℝ :=
  if mind > cmax then cmax - step else mind

/-- Embeds lines 43-62 of `min_oar_bed`: the action space
`np.arange(min_dose, diff_action + min_dose, dose_stepsize)` followed by
`max_dose`, after the bound mutations, where
`diff_action = step_round(max_dose - min_dose, dose_stepsize)`. -/
noncomputable def oar_actionspace (goal acc abt mind maxd step : ℝ) : List ℝ :=
  let mp := convert_to_physical (goal - acc) abt
  let cmax := clamped_max maxd mp
  let cmin := adjusted_min mind cmax step
  let diff_action := step_round (cmax - cmin) step
  np_arange cmin (diff_action + cmin) step ++ [cmax]

/-- Input record of `min_oar_bed` (the `keys` argument, lines 13-26). -/
structure OarKeys where
  fraction : ℕ
  number_of_fractions : ℕ
  accumulated_tumor_dose : ℝ
  sparing_factors_public : List ℝ
  alpha : ℝ
  beta : ℝ
  tumor_goal : ℝ
  abt : ℝ
  abn : ℝ
  min_dose : ℝ
  max_dose : ℝ
  fixed_prob : Bool
  fixed_mean : ℝ
  fixed_std : ℝ

/-- Settings record of `min_oar_bed` (the `sets` argument). -/
structure OarSets where
  dose_stepsize : ℝ
  sf_low : ℝ
  sf_high : ℝ
  sf_stepsize : ℝ
  sf_prob_threshold : ℝ
  inf_penalty : ℝ

/-- Embeds `min_oar_bed(keys, sets)` specialised to
`fraction == number_of_fractions`: the loop `arange(n, fraction-1, -1)` runs
exactly once through the `fraction == number_of_fractions` arm (lines
104-111), and the function returns `[physical_dose, tumor_dose, oar_dose]`
(lines 155-158) with `actual_sf = sparing_factors_public[-1]`.  The belief
preamble (lines 29-41), the action-space list and the value matrix are pure
computations whose results are unused in this branch and are elided. -/
noncomputable def min_oar_bed_final (keys : OarKeys) (sets : OarSets) : ℝ × ℝ × ℝ :=
  let actual_sf := keys.sparing_factors_public.getLastD 0
  let physical_dose := min_oar_last_dose keys.tumor_goal keys.accumulated_tumor_dose
    keys.abt keys.min_dose keys.max_dose sets.dose_stepsize
  (physical_dose, BED_calc0 physical_dose keys.abt 1, BED_calc0 physical_dose keys.abn actual_sf)

theorem sq_sqrt_of_nonneg {x : ℝ} (hx : 0 ≤ x) : Real.sqrt x ^ 2 = x := by
  rw [sq]
  exact Real.mul_self_sqrt hx

/-- The spec-modelled closed form inverts the BED formula: for a nonnegative
remaining budget the returned dose delivers exactly that budget at sparing
factor 1. -/
theorem BED_convert_to_physical {B ab : ℝ} (hab : 0 < ab) (hB : 0 ≤ B) :
    BED_calc0 (convert_to_physical B ab) ab 1 = B := by
  have harg : (0:ℝ) ≤ 1 + 4 * B / ab := by positivity
  have hab' : ab ≠ 0 := ne_of_gt hab
  unfold BED_calc0 convert_to_physical
  set s := Real.sqrt (1 + 4 * B / ab) with hsdef
  have hs : s ^ 2 = 1 + 4 * B / ab := sq_sqrt_of_nonneg harg
  have hs' : s ^ 2 * ab = ab + 4 * B := by
    rw [hs]
    field_simp
  field_simp
  nlinarith [hs']

/-- Claim C6: for all `ab > 0`, `bed(d, ab, sf) = sf*d*(1 + sf*d/ab)` exactly,
`bed(0, ab, sf) = 0`, and `bed` is strictly increasing in the (nonnegative)
dose for `sf > 0` and strictly increasing in the sparing factor for fixed
dose `d > 0`. -/
theorem c6_bed (ab d sf d₁ d₂ s₁ s₂ : ℝ) (hab : 0 < ab) :
    BED_calc0 d ab sf = sf * d * (1 + sf * d / ab) ∧
    BED_calc0 0 ab sf = 0 ∧
    (0 < sf → 0 ≤ d₁ → d₁ < d₂ → BED_calc0 d₁ ab sf < BED_calc0 d₂ ab sf) ∧
    (0 < d → 0 ≤ s₁ → s₁ < s₂ → BED_calc0 d ab s₁ < BED_calc0 d ab s₂) := by
  have expand : ∀ x y : ℝ, y * x * (1 + y * x / ab) = y * x + (y * x) * (y * x) / ab := by
    intro x y
    ring
  refine ⟨rfl, by simp [BED_calc0], ?_, ?_⟩
  · intro hsf hd1 hlt
    unfold BED_calc0
    rw [expand d₁ sf, expand d₂ sf]
    have h1 : sf * d₁ < sf * d₂ := by nlinarith
    have h2 : 0 ≤ sf * d₁ := by positivity
    have hsq : (sf * d₁) * (sf * d₁) ≤ (sf * d₂) * (sf * d₂) := by nlinarith
    have hdiv : (sf * d₁) * (sf * d₁) / ab ≤ (sf * d₂) * (sf * d₂) / ab :=
      (div_le_div_iff_of_pos_right hab).mpr hsq
    linarith
  · intro hd hs1 hlt
    unfold BED_calc0
    rw [expand d s₁, expand d s₂]
    have h1 : s₁ * d < s₂ * d := by nlinarith
    have h2 : 0 ≤ s₁ * d := by positivity
    have hsq : (s₁ * d) * (s₁ * d) ≤ (s₂ * d) * (s₂ * d) := by nlinarith
    have hdiv : (s₁ * d) * (s₁ * d) / ab ≤ (s₂ * d) * (s₂ * d) / ab :=
      (div_le_div_iff_of_pos_right hab).mpr hsq
    linarith

theorem c6_bed_witness :
    (0:ℝ) < 10 ∧
    (BED_calc0 1 10 1 = 1 * 1 * (1 + 1 * 1 / 10) ∧
      BED_calc0 0 10 1 = 0 ∧
      ((0:ℝ) < 1 → (0:ℝ) ≤ 0 → (0:ℝ) < 2 → BED_calc0 0 10 1 < BED_calc0 2 10 1) ∧
      ((0:ℝ) < 1 → (0:ℝ) ≤ 0 → (0:ℝ) < 2 → BED_calc0 1 10 0 < BED_calc0 1 10 2)) :=
  ⟨by norm_num, c6_bed 10 1 1 0 2 0 2 (by norm_num)⟩

theorem sqrt_eval {x y : ℝ} (hy : 0 ≤ y) (hxy : y ^ 2 = x) : Real.sqrt x = y := by
  rw [← hxy, Real.sqrt_sq hy]

/-- Characterisation of the final-fraction dose of `min_oar_bed` for sane
configurations (`0 ≤ min_dose ≤ max_dose`, positive step): because
`max_dose` is first clamped to the budget-exact dose and `min_dose` is then
lowered below it, the result is `max_dose` when the closed-form dose exceeds
it and the closed-form dose itself otherwise. -/
theorem min_oar_last_dose_cases (goal acc abt mind maxd step : ℝ)
    (hstep : 0 < step) (hmind : 0 ≤ mind) (hmm : mind ≤ maxd) :
    min_oar_last_dose goal acc abt mind maxd step =
      if maxd < convert_to_physical (goal - acc) abt then maxd
      else convert_to_physical (goal - acc) abt := by
  have hne : maxd ≠ -1 := by
    intro heq
    rw [heq] at hmm
    linarith
  simp only [min_oar_last_dose]
  set mp := convert_to_physical (goal - acc) abt with hmp
  rw [if_neg hne]
  by_cases hgt : maxd > mp
  · rw [if_pos hgt]
    by_cases hm : mind > mp
    · rw [if_pos hm, if_neg (by linarith : ¬ mp < mp - step), if_neg (lt_irrefl mp),
        if_neg (not_lt.mpr (le_of_lt hgt))]
    · rw [if_neg hm, if_neg (not_lt.mpr (not_lt.mp hm)), if_neg (lt_irrefl mp),
        if_neg (not_lt.mpr (le_of_lt hgt))]
  · have hgt' : maxd ≤ mp := not_lt.mp hgt
    rw [if_neg hgt, if_neg (not_lt.mpr hmm), if_neg (not_lt.mpr (le_trans hmm hgt'))]

/-- Claim C1 (amended): in the final session, `min_oar_bed` returns a dose
with `accumulated + bed(dose, abt) = tumor_goal` whenever the unconstrained
closed-form solution lies within `[min_dose, max_dose]`, and returns
`max_dose` when the unconstrained solution overshoots it; when the
unconstrained solution undershoots `min_dose` the code returns the
unconstrained solution itself (still budget-exact), not `min_dose`.  In the
3D variant, where the OAR bound applies, the final-fraction dose is the
smaller of the tumor-implied and OAR-implied closed-form doses, clamped to
zero if negative. -/
theorem c1_final_session_dose (goal acc abt mind maxd step : ℝ)
    (habt : 0 < abt) (hacc : acc ≤ goal) (hstep : 0 < step)
    (hmind : 0 ≤ mind) (hmm : mind ≤ maxd) :
    (mind ≤ convert_to_physical (goal - acc) abt →
      convert_to_physical (goal - acc) abt ≤ maxd →
      acc + BED_calc0 (min_oar_last_dose goal acc abt mind maxd step) abt 1 = goal) ∧
    (maxd < convert_to_physical (goal - acc) abt →
      min_oar_last_dose goal acc abt mind maxd step = maxd) ∧
    (convert_to_physical (goal - acc) abt < mind →
      min_oar_last_dose goal acc abt mind maxd step = convert_to_physical (goal - acc) abt ∧
      acc + BED_calc0 (min_oar_last_dose goal acc abt mind maxd step) abt 1 = goal) ∧
    (∀ BED_OAR BED_tumor bound_OAR bound_tumor abn sf_end : ℝ,
      BED_OAR ≤ bound_OAR → BED_tumor ≤ bound_tumor →
      (final_branch BED_OAR BED_tumor bound_OAR bound_tumor abt abn sf_end).1 =
        max (min (best_action_BED bound_OAR BED_OAR abn sf_end)
          (best_action_tumor bound_tumor BED_tumor abt)) 0) := by
  have hB : (0:ℝ) ≤ goal - acc := by linarith
  have hbed : BED_calc0 (convert_to_physical (goal - acc) abt) abt 1 = goal - acc :=
    BED_convert_to_physical habt hB
  have hcases := min_oar_last_dose_cases goal acc abt mind maxd step hstep hmind hmm
  refine ⟨?_, ?_, ?_, ?_⟩
  · intro _ h2
    rw [hcases, if_neg (not_lt.mpr h2), hbed]
    ring
  · intro h1
    rw [hcases, if_pos h1]
  · intro h1
    have hle : convert_to_physical (goal - acc) abt ≤ maxd := le_trans (le_of_lt h1) hmm
    constructor
    · rw [hcases, if_neg (not_lt.mpr hle)]
    · rw [hcases, if_neg (not_lt.mpr hle), hbed]
      ring
  · intro BED_OAR BED_tumor bound_OAR bound_tumor abn sf_end hO hT
    have hcon : ¬ (BED_OAR > bound_OAR ∨ BED_tumor > bound_tumor) :=
      not_or.mpr ⟨not_lt.mpr hO, not_lt.mpr hT⟩
    simp only [final_branch, if_neg hcon]
    by_cases hb : min (best_action_BED bound_OAR BED_OAR abn sf_end)
        (best_action_tumor bound_tumor BED_tumor abt) < 0
    · rw [if_pos hb]
      exact (max_eq_right (le_of_lt hb)).symm
    · rw [if_neg hb]
      exact (max_eq_left (not_lt.mp hb)).symm

/-- Claim C1 counterexample: with `tumor_goal = 20`, `accumulated = 0`,
`abt = 10`, configured `min_dose = 12`, `max_dose = 15`, `dose_stepsize = 1`,
the unconstrained closed-form solution is `10 < min_dose`, yet the returned
dose is `10`, not the configured `min_dose = 12` the claim requires. -/
theorem c1_counterexample :
    convert_to_physical (20 - 0) 10 < 12 ∧
    min_oar_last_dose 20 0 10 12 15 1 = 10 ∧ (10:ℝ) ≠ 12 := by
  have hrad : Real.sqrt ((1:ℝ) + 4 * (20 - 0) / 10) = 3 :=
    sqrt_eval (by norm_num) (by norm_num)
  have hmp : convert_to_physical (20 - 0) 10 = 10 := by
    unfold convert_to_physical
    rw [hrad]
    norm_num
  refine ⟨by rw [hmp]; norm_num, ?_, by norm_num⟩
  simp only [min_oar_last_dose, hmp]
  norm_num

theorem c1_final_session_dose_witness :
    ((0:ℝ) < 10 ∧ (0:ℝ) ≤ 20 ∧ (0:ℝ) < 1 ∧ (0:ℝ) ≤ 0 ∧ (0:ℝ) ≤ 15) ∧
    ((0 ≤ convert_to_physical (20 - 0) 10 →
      convert_to_physical (20 - 0) 10 ≤ 15 →
      0 + BED_calc0 (min_oar_last_dose 20 0 10 0 15 1) 10 1 = 20) ∧
    (15 < convert_to_physical (20 - 0) 10 →
      min_oar_last_dose 20 0 10 0 15 1 = 15) ∧
    (convert_to_physical (20 - 0) 10 < 0 →
      min_oar_last_dose 20 0 10 0 15 1 = convert_to_physical (20 - 0) 10 ∧
      0 + BED_calc0 (min_oar_last_dose 20 0 10 0 15 1) 10 1 = 20) ∧
    (∀ BED_OAR BED_tumor bound_OAR bound_tumor abn sf_end : ℝ,
      BED_OAR ≤ bound_OAR → BED_tumor ≤ bound_tumor →
      (final_branch BED_OAR BED_tumor bound_OAR bound_tumor 10 abn sf_end).1 =
        max (min (best_action_BED bound_OAR BED_OAR abn sf_end)
          (best_action_tumor bound_tumor BED_tumor 10)) 0)) :=
  ⟨⟨by norm_num, by norm_num, by norm_num, by norm_num, by norm_num⟩,
    c1_final_session_dose 20 0 10 0 15 1 (by norm_num) (by norm_num) (by norm_num)
      (by norm_num) (by norm_num)⟩

/-- Claim C2 (amended): in the 3D variant, entering the final decision
fraction with `accumulated_tumor_bed > tumor_goal` or
`accumulated_oar_bed > oar_bound` returns dose exactly `0` and sets the
over-limit penalty flag `-100000000000`.  (The `min_oar_bed` variant performs
no such check; see the counterexample.) -/
theorem c2_overlimit_final (BED_OAR BED_tumor bound_OAR bound_tumor abt abn sf_end : ℝ)
    (h : BED_OAR > bound_OAR ∨ BED_tumor > bound_tumor) :
    final_branch BED_OAR BED_tumor bound_OAR bound_tumor abt abn sf_end =
      (0, -100000000000) := by
  simp only [final_branch, if_pos h]

/-- Claim C2 counterexample: `min_oar_bed` entering its final fraction with
`accumulated_tumor_dose = 23 > tumor_goal = 20` (with `abt = 16`,
`min_dose = 2`, `max_dose = 10`, `dose_stepsize = 1`) returns the unclamped
closed-form dose `-4`: neither the configured minimum `2` nor `0`, and no
over-limit flag exists in that routine. -/
theorem c2_counterexample :
    (23:ℝ) > 20 ∧
    min_oar_last_dose 20 23 16 2 10 1 = -4 ∧ (-4:ℝ) ≠ 2 ∧ (-4:ℝ) ≠ 0 := by
  have hrad : Real.sqrt ((1:ℝ) + 4 * (20 - 23) / 16) = 1 / 2 :=
    sqrt_eval (by norm_num) (by norm_num)
  have hmp : convert_to_physical (20 - 23) 16 = -4 := by
    unfold convert_to_physical
    rw [hrad]
    norm_num
  refine ⟨by norm_num, ?_, by norm_num, by norm_num⟩
  simp only [min_oar_last_dose, hmp]
  norm_num

theorem c2_overlimit_final_witness :
    ((0:ℝ) > 90 ∨ (80:ℝ) > 72) ∧
    final_branch 0 80 90 72 10 3 1 = (0, -100000000000) :=
  ⟨Or.inr (by norm_num), c2_overlimit_final 0 80 90 72 10 3 1 (Or.inr (by norm_num))⟩

/-- Claim C3: whenever the argument of a square root in the terminal
closed-form dose is negative (OAR radicand `sf^2 + 4 sf^2 (bound-acc)/abn` or
tumor radicand `1 + 4 (bound-acc)/abt`), the corresponding accumulated dose
already exceeds its bound, so the over-limit branch fires: both the
final-fraction decision and every terminal-layer value cell force the action
to `0` with the finite penalty `-100000000000` (the value cell becomes
`end_penalty + penalty` with zero OAR dose), and no square root reaches the
returned dose or the value table. -/
theorem c3_negative_radicand (BED_OAR BED_tumor bound_OAR bound_tumor abt abn s : ℝ)
    (habt : 0 < abt) (habn : 0 < abn) (hs : 0 < s)
    (hneg : s ^ 2 + 4 * s ^ 2 * (bound_OAR - BED_OAR) / abn < 0 ∨
      1 + 4 * (bound_tumor - BED_tumor) / abt < 0) :
    (BED_OAR > bound_OAR ∨ BED_tumor > bound_tumor) ∧
    final_branch BED_OAR BED_tumor bound_OAR bound_tumor abt abn s =
      (0, -100000000000) ∧
    terminal_cell BED_tumor BED_OAR bound_tumor bound_OAR abt abn s =
      (0, min (BED_tumor - bound_tumor) 0 * 10 + -100000000000) := by
  have hover : BED_OAR > bound_OAR ∨ BED_tumor > bound_tumor := by
    rcases hneg with h | h
    · left
      have hs2 : 0 < s ^ 2 := by positivity
      have h1 : s ^ 2 * (1 + 4 * (bound_OAR - BED_OAR) / abn) < 0 := by
        calc s ^ 2 * (1 + 4 * (bound_OAR - BED_OAR) / abn)
            = s ^ 2 + 4 * s ^ 2 * (bound_OAR - BED_OAR) / abn := by ring
          _ < 0 := h
      have h2 : 1 + 4 * (bound_OAR - BED_OAR) / abn < 0 := by
        by_contra hc
        push_neg at hc
        nlinarith
      have h3 : 4 * (bound_OAR - BED_OAR) < -abn := by
        have := (div_lt_iff₀ habn).mp (by linarith : 4 * (bound_OAR - BED_OAR) / abn < -1)
        linarith
      linarith
    · right
      have h3 : 4 * (bound_tumor - BED_tumor) < -abt := by
        have := (div_lt_iff₀ habt).mp (by linarith : 4 * (bound_tumor - BED_tumor) / abt < -1)
        linarith
      linarith
  refine ⟨hover, by simp only [final_branch, if_pos hover], ?_⟩
  simp only [terminal_cell, if_pos hover, if_neg (lt_irrefl (0:ℝ))]
  have hb0 : BED_calc0 0 abt 1 = 0 := by simp [BED_calc0]
  have hb0' : BED_calc0 0 abn s = 0 := by simp [BED_calc0]
  rw [hb0, hb0']
  norm_num

theorem BED_nonneg {d ab s : ℝ} (hab : 0 < ab) (hd : 0 ≤ d) (hs : 0 ≤ s) :
    0 ≤ BED_calc0 d ab s := by
  unfold BED_calc0
  positivity

theorem getLastD_nonneg (l : List ℝ) : ∀ d : ℝ, 0 ≤ d → (∀ x ∈ l, 0 ≤ x) →
    0 ≤ l.getLastD d := by
  induction l with
  | nil =>
    intro d hd _
    simpa using hd
  | cons a l ih =>
    intro d _ h
    rw [List.getLastD_cons]
    exact ih a (h a (List.mem_cons_self a l)) (fun x hx => h x (List.mem_cons_of_mem a hx))

theorem plan_aux_lengths (choose : ℕ → ℝ → ℝ → List ℝ → ℝ) (abt abn : ℝ) (sfs : List ℝ) :
    ∀ (r i : ℕ) (aO aT : ℝ),
    (plan_aux choose abt abn sfs i r aO aT).tumor_doses.length = r ∧
    (plan_aux choose abt abn sfs i r aO aT).oar_doses.length = r ∧
    (plan_aux choose abt abn sfs i r aO aT).physical_doses.length = r := by
  intro r
  induction r with
  | zero =>
    intro i aO aT
    simp [plan_aux]
  | succ r ih =>
    intro i aO aT
    simp only [plan_aux, List.length_cons]
    obtain ⟨h1, h2, h3⟩ := ih (i + 1) _ _
    exact ⟨by rw [h1], by rw [h2], by rw [h3]⟩

theorem plan_aux_acc_mono (choose : ℕ → ℝ → ℝ → List ℝ → ℝ) (abt abn : ℝ) (sfs : List ℝ)
    (hch : ∀ f o t l, 0 ≤ choose f o t l) (hsf : ∀ x ∈ sfs, 0 ≤ x)
    (habt : 0 < abt) (habn : 0 < abn) :
    ∀ (k i : ℕ) (aO aT : ℝ),
    (plan_aux choose abt abn sfs i k aO aT).accumulated_OAR ≤
      (plan_aux choose abt abn sfs i (k + 1) aO aT).accumulated_OAR ∧
    (plan_aux choose abt abn sfs i k aO aT).accumulated_tumor ≤
      (plan_aux choose abt abn sfs i (k + 1) aO aT).accumulated_tumor := by
  intro k
  induction k with
  | zero =>
    intro i aO aT
    simp only [plan_aux, value_eval_return]
    have hd := hch (i + 1) aO aT (sfs.take (i + 2))
    have hsl : 0 ≤ (sfs.take (i + 2)).getLastD 0 :=
      getLastD_nonneg _ 0 le_rfl (fun x hx => hsf x (List.take_subset _ _ hx))
    constructor
    · have := BED_nonneg habn hd hsl
      linarith
    · have := BED_nonneg habt hd (by norm_num : (0:ℝ) ≤ 1)
      linarith
  | succ k ih =>
    intro i aO aT
    simp only [plan_aux]
    exact ih (i + 1) _ _

theorem plan_aux_records (choose : ℕ → ℝ → ℝ → List ℝ → ℝ) (abt abn : ℝ) (sfs : List ℝ) :
    ∀ (r i : ℕ) (aO aT : ℝ) (j : ℕ), j < r →
    (plan_aux choose abt abn sfs i r aO aT).tumor_doses.getD j 0 =
      BED_calc0 ((plan_aux choose abt abn sfs i r aO aT).physical_doses.getD j 0) abt 1 ∧
    (plan_aux choose abt abn sfs i r aO aT).oar_doses.getD j 0 =
      BED_calc0 ((plan_aux choose abt abn sfs i r aO aT).physical_doses.getD j 0) abn
        ((sfs.take (i + j + 2)).getLastD 0) := by
  intro r
  induction r with
  | zero =>
    intro i aO aT j hj
    exact absurd hj (Nat.not_lt_zero j)
  | succ r ih =>
    intro i aO aT j hj
    cases j with
    | zero =>
      simp [plan_aux, value_eval_return]
    | succ j =>
      have hj' : j < r := by omega
      have heq : i + 1 + j + 2 = i + (j + 1) + 2 := by omega
      simp only [plan_aux, List.getD_cons_succ]
      have h := ih (i + 1)
        (value_eval_return choose abt abn (i + 1) aO aT (sfs.take (i + 2))).accumulated_OAR
        (value_eval_return choose abt abn (i + 1) aO aT (sfs.take (i + 2))).accumulated_tumor
        j hj'
      rw [heq] at h
      exact h

theorem take_getLastD (l : List ℝ) (n : ℕ) (h : n + 2 ≤ l.length) :
    (l.take (n + 2)).getLastD 0 = l.getD (n + 1) 0 := by
  have hlen : (l.take (n + 2)).length = n + 2 := by
    rw [List.length_take]
    omega
  rw [List.getLastD_eq_getLast?, List.getLast?_eq_getElem?, hlen,
    show n + 2 - 1 = n + 1 from rfl,
    List.getElem?_take_of_lt (by omega : n + 1 < n + 2),
    List.getD_eq_getElem?_getD]

/-- Claim C4: `whole_plan` over the 5-session course returns exactly 5
per-session records in each of the three lists; for every session `i` the
recorded tumor BED is `bed(dose_i, abt, 1)` and the recorded OAR BED is
`bed(dose_i, abn, sf_i)` with `sf_i` the session's observed sparing factor
(`sparing_factors[i+1]`); and the accumulated tumor and OAR BEDs carried
across sessions are non-decreasing (for any nonnegative dose policy and
nonnegative sparing factors). -/
theorem c4_whole_plan (choose : ℕ → ℝ → ℝ → List ℝ → ℝ) (sfs : List ℝ) (abt abn : ℝ)
    (hch : ∀ f o t l, 0 ≤ choose f o t l) (hsf : ∀ x ∈ sfs, 0 ≤ x)
    (habt : 0 < abt) (habn : 0 < abn) (hlen : 6 ≤ sfs.length) :
    (whole_plan choose sfs abt abn).1.length = 5 ∧
    (whole_plan choose sfs abt abn).2.1.length = 5 ∧
    (whole_plan choose sfs abt abn).2.2.length = 5 ∧
    (∀ i < 5,
      (whole_plan choose sfs abt abn).1.getD i 0 =
        BED_calc0 ((whole_plan choose sfs abt abn).2.2.getD i 0) abt 1 ∧
      (whole_plan choose sfs abt abn).2.1.getD i 0 =
        BED_calc0 ((whole_plan choose sfs abt abn).2.2.getD i 0) abn (sfs.getD (i + 1) 0)) ∧
    (∀ k < 5,
      (plan_acc choose sfs abt abn k).1 ≤ (plan_acc choose sfs abt abn (k + 1)).1 ∧
      (plan_acc choose sfs abt abn k).2 ≤ (plan_acc choose sfs abt abn (k + 1)).2) := by
  obtain ⟨hl1, hl2, hl3⟩ := plan_aux_lengths choose abt abn sfs 5 0 0 0
  refine ⟨hl1, hl2, hl3, ?_, ?_⟩
  · intro i hi
    obtain ⟨hrec1, hrec2⟩ := plan_aux_records choose abt abn sfs 5 0 0 0 i hi
    refine ⟨hrec1, ?_⟩
    show (plan_aux choose abt abn sfs 0 5 0 0).oar_doses.getD i 0 =
      BED_calc0 ((plan_aux choose abt abn sfs 0 5 0 0).physical_doses.getD i 0) abn
        (sfs.getD (i + 1) 0)
    rw [hrec2, show 0 + i + 2 = i + 2 from by omega,
      take_getLastD sfs i (by omega)]
  · intro k _
    exact plan_aux_acc_mono choose abt abn sfs hch hsf habt habn k 0 0 0

theorem c4_whole_plan_witness :
    ((∀ f o t l, 0 ≤ (fun (_ : ℕ) (_ _ : ℝ) (_ : List ℝ) => (1:ℝ)) f o t l) ∧
      (∀ x ∈ ([1, 1, 1, 1, 1, 1] : List ℝ), 0 ≤ x) ∧
      (0:ℝ) < 10 ∧ (0:ℝ) < 3 ∧ 6 ≤ ([1, 1, 1, 1, 1, 1] : List ℝ).length) ∧
    ((whole_plan (fun _ _ _ _ => 1) [1, 1, 1, 1, 1, 1] 10 3).1.length = 5 ∧
    (whole_plan (fun _ _ _ _ => 1) [1, 1, 1, 1, 1, 1] 10 3).2.1.length = 5 ∧
    (whole_plan (fun _ _ _ _ => 1) [1, 1, 1, 1, 1, 1] 10 3).2.2.length = 5 ∧
    (∀ i < 5,
      (whole_plan (fun _ _ _ _ => 1) [1, 1, 1, 1, 1, 1] 10 3).1.getD i 0 =
        BED_calc0 ((whole_plan (fun _ _ _ _ => 1) [1, 1, 1, 1, 1, 1] 10 3).2.2.getD i 0) 10 1 ∧
      (whole_plan (fun _ _ _ _ => 1) [1, 1, 1, 1, 1, 1] 10 3).2.1.getD i 0 =
        BED_calc0 ((whole_plan (fun _ _ _ _ => 1) [1, 1, 1, 1, 1, 1] 10 3).2.2.getD i 0) 3
          (([1, 1, 1, 1, 1, 1] : List ℝ).getD (i + 1) 0)) ∧
    (∀ k < 5,
      (plan_acc (fun _ _ _ _ => 1) [1, 1, 1, 1, 1, 1] 10 3 k).1 ≤
        (plan_acc (fun _ _ _ _ => 1) [1, 1, 1, 1, 1, 1] 10 3 (k + 1)).1 ∧
      (plan_acc (fun _ _ _ _ => 1) [1, 1, 1, 1, 1, 1] 10 3 k).2 ≤
        (plan_acc (fun _ _ _ _ => 1) [1, 1, 1, 1, 1, 1] 10 3 (k + 1)).2)) :=
  ⟨⟨fun _ _ _ _ => by norm_num,
    by
      intro x hx
      fin_cases hx <;> norm_num,
    by norm_num, by norm_num, by norm_num⟩,
    c4_whole_plan (fun _ _ _ _ => 1) [1, 1, 1, 1, 1, 1] 10 3
      (fun _ _ _ _ => by norm_num)
      (by
        intro x hx
        fin_cases hx <;> norm_num)
      (by norm_num) (by norm_num) (by norm_num)⟩

theorem zip_map_self (f : ℝ → ℝ) :
    ∀ (l : List ℝ), ∀ p ∈ l.zip (l.map f), p.2 = f p.1 ∧ p.1 ∈ l := by
  intro l
  induction l with
  | nil =>
    intro p hp
    simp at hp
  | cons a l ih =>
    intro p hp
    rw [List.map_cons, List.zip_cons_cons] at hp
    rcases List.mem_cons.mp hp with h | h
    · subst h
      exact ⟨rfl, List.mem_cons_self a l⟩
    · obtain ⟨h1, h2⟩ := ih p h
      exact ⟨h1, List.mem_cons_of_mem a h2⟩

theorem zip_map_self_snd (f : ℝ → ℝ) :
    ∀ (l : List ℝ), (l.zip (l.map f)).map Prod.snd = l.map f := by
  intro l
  induction l with
  | nil => simp
  | cons a l ih =>
    simp only [List.map_cons, List.zip_cons_cons]
    rw [ih]

theorem filter_map_snd_sum_le (q : ℝ × ℝ → Bool) :
    ∀ (l : List (ℝ × ℝ)), (∀ p ∈ l, 0 ≤ p.2) →
    ((l.filter q).map Prod.snd).sum ≤ (l.map Prod.snd).sum := by
  intro l
  induction l with
  | nil => simp
  | cons a l ih =>
    intro h
    have ha : 0 ≤ a.2 := h a (List.mem_cons_self a l)
    have hl := ih (fun p hp => h p (List.mem_cons_of_mem a hp))
    by_cases hq : q a
    · rw [List.filter_cons_of_pos hq, List.map_cons, List.map_cons, List.sum_cons,
        List.sum_cons]
      linarith
    · rw [List.filter_cons_of_neg (by simpa using hq), List.map_cons, List.sum_cons]
      linarith

theorem range_map_telescope (f : ℕ → ℝ) :
    ∀ n : ℕ, ((List.range n).map (fun k => f (k + 1) - f k)).sum = f n - f 0 := by
  intro n
  induction n with
  | zero => simp
  | succ n ih =>
    rw [List.range_succ, List.map_append, List.sum_append, ih]
    simp

theorem probdist_telescope (cdf : ℝ → ℝ) :
    probdist cdf =
      (List.range 130).map
        (fun k => (fun m : ℕ => cdf (1 / 200 + (m : ℝ) / 100)) (k + 1) -
          (fun m : ℕ => cdf (1 / 200 + (m : ℝ) / 100)) k) := by
  unfold probdist sf_grid
  rw [List.map_map]
  refine List.map_congr_left ?_
  intro k _
  show cdf ((1 / 100 + (k : ℝ) / 100) + 1 / 200) - cdf ((1 / 100 + (k : ℝ) / 100) - 1 / 200) = _
  have e1 : (1 / 100 + (k : ℝ) / 100) + 1 / 200 = 1 / 200 + (((k : ℕ) + 1 : ℕ) : ℝ) / 100 := by
    push_cast
    ring
  have e2 : (1 / 100 + (k : ℝ) / 100) - 1 / 200 = 1 / 200 + (k : ℝ) / 100 := by ring
  rw [e1, e2]

/-- Claim C5: every retained `(sparing factor, probability)` pair carries
exactly the CDF difference of the belief distribution over the bin of width
0.01 centered at its grid point and has mass above the `1e-5` threshold (so
every bin below the threshold is absent); the retained probabilities are the
raw, unrenormalized CDF differences, their total is at most the total
discretized mass, and that total is at most 1. -/
theorem c5_probdist (cdf : ℝ → ℝ) (hmono : Monotone cdf)
    (hlb : ∀ x, 0 ≤ cdf x) (hub : ∀ x, cdf x ≤ 1) :
    (∀ p ∈ retained_pairs cdf,
      p.2 = cdf (p.1 + 1 / 200) - cdf (p.1 - 1 / 200) ∧
      1 / 100000 < p.2 ∧ p.1 ∈ sf_grid) ∧
    ((retained_pairs cdf).map Prod.snd).sum ≤ (probdist cdf).sum ∧
    (probdist cdf).sum ≤ 1 := by
  have hmem : ∀ p ∈ sf_grid.zip (probdist cdf),
      p.2 = cdf (p.1 + 1 / 200) - cdf (p.1 - 1 / 200) ∧ p.1 ∈ sf_grid := by
    intro p hp
    exact zip_map_self _ sf_grid p hp
  have hnn : ∀ p ∈ sf_grid.zip (probdist cdf), 0 ≤ p.2 := by
    intro p hp
    obtain ⟨h1, _⟩ := hmem p hp
    rw [h1]
    have := hmono (by linarith : p.1 - 1 / 200 ≤ p.1 + 1 / 200)
    linarith
  refine ⟨?_, ?_, ?_⟩
  · intro p hp
    obtain ⟨hz, hq⟩ := List.mem_filter.mp hp
    obtain ⟨h1, h2⟩ := hmem p hz
    exact ⟨h1, of_decide_eq_true hq, h2⟩
  · have h := filter_map_snd_sum_le (fun p => decide ((1:ℝ) / 100000 < p.2))
      (sf_grid.zip (probdist cdf)) hnn
    have hz : (sf_grid.zip (probdist cdf)).map Prod.snd = probdist cdf := by
      unfold probdist
      exact zip_map_self_snd _ sf_grid
    rw [hz] at h
    exact h
  · have ht := range_map_telescope (fun m : ℕ => cdf (1 / 200 + (m : ℝ) / 100)) 130
    rw [probdist_telescope, ht]
    have h1 := hub (1 / 200 + ((130 : ℕ) : ℝ) / 100)
    have h2 := hlb (1 / 200 + ((0 : ℕ) : ℝ) / 100)
    linarith

theorem c5_probdist_witness :
    (Monotone (fun _ : ℝ => (1 / 2 : ℝ)) ∧
      (∀ x : ℝ, 0 ≤ (fun _ : ℝ => (1 / 2 : ℝ)) x) ∧
      (∀ x : ℝ, (fun _ : ℝ => (1 / 2 : ℝ)) x ≤ 1)) ∧
    ((∀ p ∈ retained_pairs (fun _ => 1 / 2),
      p.2 = (fun _ : ℝ => (1 / 2 : ℝ)) (p.1 + 1 / 200) -
        (fun _ : ℝ => (1 / 2 : ℝ)) (p.1 - 1 / 200) ∧
      1 / 100000 < p.2 ∧ p.1 ∈ sf_grid) ∧
    ((retained_pairs (fun _ => 1 / 2)).map Prod.snd).sum ≤
      (probdist (fun _ => 1 / 2)).sum ∧
    (probdist (fun _ => 1 / 2)).sum ≤ 1) :=
  ⟨⟨monotone_const, fun _ => by norm_num, fun _ => by norm_num⟩,
    c5_probdist (fun _ => 1 / 2) monotone_const (fun _ => by norm_num)
      (fun _ => by norm_num)⟩

theorem argmaxIdx_spec : ∀ l : List ℝ, l ≠ [] →
    argmaxIdx l < l.length ∧
    (∀ j < l.length, l.getD j 0 ≤ l.getD (argmaxIdx l) 0) ∧
    (∀ j < argmaxIdx l, l.getD j 0 < l.getD (argmaxIdx l) 0) := by
  intro l
  induction l with
  | nil =>
    intro h
    exact absurd rfl h
  | cons x l ih =>
    intro _
    cases l with
    | nil =>
      refine ⟨by simp [argmaxIdx], ?_, ?_⟩
      · intro j hj
        have hj0 : j = 0 := by
          simp at hj
          omega
        subst hj0
        simp [argmaxIdx]
      · intro j hj
        simp [argmaxIdx] at hj
    | cons y t =>
      obtain ⟨ihb, ihmax, ihstrict⟩ := ih (List.cons_ne_nil y t)
      by_cases hc : (y :: t).getD (argmaxIdx (y :: t)) 0 ≤ x
      · have hidx : argmaxIdx (x :: y :: t) = 0 := by
          rw [argmaxIdx, if_pos hc]
        rw [hidx]
        refine ⟨by simp, ?_, ?_⟩
        · intro j hj
          cases j with
          | zero => simp
          | succ j =>
            rw [List.getD_cons_succ, List.getD_cons_zero]
            exact le_trans (ihmax j (by simpa using Nat.lt_of_succ_lt_succ hj)) hc
        · intro j hj
          exact absurd hj (Nat.not_lt_zero j)
      · have hidx : argmaxIdx (x :: y :: t) = argmaxIdx (y :: t) + 1 := by
          rw [argmaxIdx, if_neg hc]
        have hxlt : x < (y :: t).getD (argmaxIdx (y :: t)) 0 := lt_of_not_le hc
        rw [hidx]
        refine ⟨by simpa using Nat.succ_lt_succ ihb, ?_, ?_⟩
        · intro j hj
          rw [List.getD_cons_succ]
          cases j with
          | zero =>
            rw [List.getD_cons_zero]
            exact le_of_lt hxlt
          | succ j =>
            rw [List.getD_cons_succ]
            exact ihmax j (by simpa using Nat.lt_of_succ_lt_succ hj)
        · intro j hj
          rw [List.getD_cons_succ]
          cases j with
          | zero =>
            rw [List.getD_cons_zero]
            exact hxlt
          | succ j =>
            rw [List.getD_cons_succ]
            exact ihstrict j (Nat.lt_of_succ_lt_succ hj)

/-- Claim C9: action selection uses first-maximum argmax semantics: the
selected index attains the maximal value, any tied maximizer has an index at
least as large (so the chosen dose is the one at the lowest index, i.e. the
lowest dose, of the ascending action space), and the chosen dose is the
action-space entry at that index. -/
theorem c9_tie_break (actionspace vs : List ℝ) (h : vs ≠ []) :
    argmaxIdx vs < vs.length ∧
    (∀ j < vs.length, vs.getD j 0 ≤ vs.getD (argmaxIdx vs) 0) ∧
    (∀ j < vs.length, vs.getD j 0 = vs.getD (argmaxIdx vs) 0 → argmaxIdx vs ≤ j) ∧
    select_dose actionspace vs = actionspace.getD (argmaxIdx vs) 0 := by
  obtain ⟨hb, hmax, hstrict⟩ := argmaxIdx_spec vs h
  refine ⟨hb, hmax, ?_, rfl⟩
  intro j hj heq
  by_contra hc
  push_neg at hc
  exact absurd heq (ne_of_lt (hstrict j hc))

theorem c9_tie_break_witness :
    ([0, 1, 1] : List ℝ) ≠ [] ∧
    (argmaxIdx [0, 1, 1] < ([0, 1, 1] : List ℝ).length ∧
    (∀ j < ([0, 1, 1] : List ℝ).length,
      ([0, 1, 1] : List ℝ).getD j 0 ≤ ([0, 1, 1] : List ℝ).getD (argmaxIdx [0, 1, 1]) 0) ∧
    (∀ j < ([0, 1, 1] : List ℝ).length,
      ([0, 1, 1] : List ℝ).getD j 0 = ([0, 1, 1] : List ℝ).getD (argmaxIdx [0, 1, 1]) 0 →
        argmaxIdx [0, 1, 1] ≤ j) ∧
    select_dose [1, 2, 3] [0, 1, 1] = ([1, 2, 3] : List ℝ).getD (argmaxIdx [0, 1, 1]) 0) :=
  ⟨by simp, c9_tie_break [1, 2, 3] [0, 1, 1] (by simp)⟩

theorem getD_map_lt {α β : Type} (f : α → β) (l : List α) (j : ℕ) (d : α) (d' : β)
    (hj : j < l.length) : (l.map f).getD j d' = f (l.getD j d) := by
  rw [List.getD_eq_getElem?_getD, List.getElem?_map, List.getElem?_eq_getElem hj,
    List.getD_eq_getElem?_getD, List.getElem?_eq_getElem hj]
  rfl

theorem var_values_getD (j : ℕ) (hj : j < 24999) :
    var_values.getD j 0 = 1 / 100000 + (j : ℝ) / 100000 := by
  have hr : (List.range 24999).getD j 0 = j := by
    rw [List.getD_eq_getElem?_getD, List.getElem?_range hj]
    rfl
  unfold var_values
  rw [getD_map_lt _ _ j 0 0 (by simpa using hj), hr]

theorem var_values_pos (j : ℕ) (hj : j < 24999) : 0 < var_values.getD j 0 := by
  rw [var_values_getD j hj]
  positivity

theorem likelihood_eq_density (alpha beta n sv : ℝ) {v : ℝ} (hv : 0 < v) :
    likelihood alpha beta n sv v = posterior_density alpha beta n sv v := by
  unfold likelihood posterior_density
  have h1 : -sv * n / (2 * v) = -(n * sv) / (2 * v) := by ring
  rw [h1, Real.rpow_neg hv.le, div_eq_mul_inv]

/-- Claim C8: for every observation list and prior `(alpha, beta)`,
`std_calc` returns the square root of a grid variance (grid
`arange(0.00001, 0.25, 0.00001)`) that maximizes the un-normalized posterior
density `v^(-alpha-1) * v^(-n/2) * exp(-beta/v) * exp(-n*sample_var/(2v))`
over the whole grid, where `n` is the number of observations and
`sample_var` their population variance. -/
theorem c8_std_calc (measured_data : List ℝ) (alpha beta : ℝ) :
    ∃ k : ℕ, k < 24999 ∧
      std_calc measured_data alpha beta = Real.sqrt (1 / 100000 + (k : ℝ) / 100000) ∧
      ∀ j : ℕ, j < 24999 →
        posterior_density alpha beta (measured_data.length : ℝ) (np_var measured_data)
          (1 / 100000 + (j : ℝ) / 100000) ≤
        posterior_density alpha beta (measured_data.length : ℝ) (np_var measured_data)
          (1 / 100000 + (k : ℝ) / 100000) := by
  have hvlen : var_values.length = 24999 := by
    unfold var_values
    simp
  set L := var_values.map
      (likelihood alpha beta (measured_data.length : ℝ) (np_var measured_data)) with hLdef
  have hLlen : L.length = 24999 := by
    rw [hLdef, List.length_map, hvlen]
  have hne : L ≠ [] := by
    intro h0
    rw [h0] at hLlen
    simp at hLlen
  obtain ⟨hb, hmax, _⟩ := argmaxIdx_spec L hne
  rw [hLlen] at hb
  refine ⟨argmaxIdx L, hb, ?_, ?_⟩
  · unfold std_calc
    rw [← hLdef, var_values_getD _ hb]
  · intro j hj
    have h := hmax j (by rw [hLlen]; exact hj)
    rw [hLdef] at h
    rw [getD_map_lt _ _ j 0 0 (by rw [hvlen]; exact hj)] at h
    rw [getD_map_lt _ _ _ 0 0 (by rw [hvlen]; exact hb)] at h
    rw [var_values_getD j hj] at h
    rw [var_values_getD _ hb] at h
    rw [likelihood_eq_density alpha beta _ _ (by positivity)] at h
    rw [likelihood_eq_density alpha beta _ _ (by positivity)] at h
    exact h

theorem c3_negative_radicand_witness :
    ((0:ℝ) < 10 ∧ (0:ℝ) < 3 ∧ (0:ℝ) < 1 ∧
      ((1:ℝ) ^ 2 + 4 * 1 ^ 2 * (90 - 100) / 3 < 0 ∨ (1:ℝ) + 4 * (72 - 0) / 10 < 0)) ∧
    (((100:ℝ) > 90 ∨ (0:ℝ) > 72) ∧
      final_branch 100 0 90 72 10 3 1 = (0, -100000000000) ∧
      terminal_cell 0 100 72 90 10 3 1 = (0, min ((0:ℝ) - 72) 0 * 10 + -100000000000)) :=
  ⟨⟨by norm_num, by norm_num, by norm_num, Or.inl (by norm_num)⟩,
    c3_negative_radicand 100 0 90 72 10 3 1 (by norm_num) (by norm_num) (by norm_num)
      (Or.inl (by norm_num))⟩

theorem clamped_max_le_mp (maxd mp : ℝ) : clamped_max maxd mp ≤ mp := by
  unfold clamped_max
  split_ifs with h1 h2
  · exact le_refl mp
  · exact le_refl mp
  · exact not_lt.mp h2

theorem arange_le (cmin cmax step : ℝ) (hstep : 0 < step) :
    ∀ a ∈ np_arange cmin (step_round (cmax - cmin) step + cmin) step, a ≤ cmax := by
  intro a ha
  unfold np_arange at ha
  rcases List.mem_map.mp ha with ⟨k, hk, rfl⟩
  rw [List.mem_range] at hk
  set m := ⌊(cmax - cmin) / step⌋ with hm
  have hstep' : step ≠ 0 := ne_of_gt hstep
  have harg : (step_round (cmax - cmin) step + cmin - cmin) / step = (m : ℝ) := by
    unfold step_round
    rw [← hm]
    field_simp
  have hceil : ⌈(step_round (cmax - cmin) step + cmin - cmin) / step⌉ = m := by
    rw [harg]
    exact Int.ceil_intCast m
  rw [hceil] at hk
  have hkZ : (k : ℤ) < m := Int.lt_toNat.mp hk
  have hk1 : ((k : ℝ) + 1) ≤ (m : ℝ) := by
    have : (k : ℤ) + 1 ≤ m := hkZ
    exact_mod_cast this
  have hfloor : (m : ℝ) ≤ (cmax - cmin) / step := Int.floor_le _
  have h1 : ((k : ℝ) + 1) * step ≤ cmax - cmin := by
    have h2 := mul_le_mul_of_nonneg_right (le_trans hk1 hfloor) (le_of_lt hstep)
    rwa [div_mul_cancel₀ _ hstep'] at h2
  nlinarith

/-- Claim C7: for `min_oar_bed`'s action space, the budget-derived maximum
`mp = convert_to_physical(tumor_goal - accumulated, abt)` delivers exactly
the remaining tumor BED at sparing factor 1; every action is at most the
clamped maximum and at most `mp`; the `-1` sentinel selects `mp` exactly; a
configured `max_dose` at most `mp` is kept, so no action exceeds it; and a
configured `min_dose` above the clamped maximum is replaced by
`max_dose - dose_stepsize`. -/
theorem c7_actionspace (goal acc abt mind maxd step : ℝ)
    (habt : 0 < abt) (hrem : acc ≤ goal) (hstep : 0 < step) :
    BED_calc0 (convert_to_physical (goal - acc) abt) abt 1 = goal - acc ∧
    (∀ a ∈ oar_actionspace goal acc abt mind maxd step,
      a ≤ clamped_max maxd (convert_to_physical (goal - acc) abt) ∧
      a ≤ convert_to_physical (goal - acc) abt) ∧
    (maxd = -1 → clamped_max maxd (convert_to_physical (goal - acc) abt) =
      convert_to_physical (goal - acc) abt) ∧
    (maxd ≠ -1 → maxd ≤ convert_to_physical (goal - acc) abt →
      clamped_max maxd (convert_to_physical (goal - acc) abt) = maxd) ∧
    (mind > clamped_max maxd (convert_to_physical (goal - acc) abt) →
      adjusted_min mind (clamped_max maxd (convert_to_physical (goal - acc) abt)) step =
        clamped_max maxd (convert_to_physical (goal - acc) abt) - step) := by
  set mp := convert_to_physical (goal - acc) abt with hmp
  refine ⟨BED_convert_to_physical habt (by linarith), ?_, ?_, ?_, ?_⟩
  · intro a ha
    simp only [oar_actionspace, ← hmp] at ha
    rcases List.mem_append.mp ha with h | h
    · have hle := arange_le (adjusted_min mind (clamped_max maxd mp) step)
        (clamped_max maxd mp) step hstep a h
      exact ⟨hle, le_trans hle (clamped_max_le_mp maxd mp)⟩
    · rw [List.mem_singleton] at h
      subst h
      exact ⟨le_refl _, clamped_max_le_mp maxd mp⟩
  · intro h
    unfold clamped_max
    rw [if_pos h]
  · intro h1 h2
    unfold clamped_max
    rw [if_neg h1, if_neg (not_lt.mpr h2)]
  · intro h
    unfold adjusted_min
    rw [if_pos h]

theorem c7_actionspace_witness :
    ((0:ℝ) < 10 ∧ (0:ℝ) ≤ 20 ∧ (0:ℝ) < 1) ∧
    (BED_calc0 (convert_to_physical (20 - 0) 10) 10 1 = 20 - 0 ∧
    (∀ a ∈ oar_actionspace 20 0 10 0 (-1) 1,
      a ≤ clamped_max (-1) (convert_to_physical (20 - 0) 10) ∧
      a ≤ convert_to_physical (20 - 0) 10) ∧
    ((-1 : ℝ) = -1 → clamped_max (-1) (convert_to_physical (20 - 0) 10) =
      convert_to_physical (20 - 0) 10) ∧
    ((-1 : ℝ) ≠ -1 → (-1 : ℝ) ≤ convert_to_physical (20 - 0) 10 →
      clamped_max (-1) (convert_to_physical (20 - 0) 10) = -1) ∧
    ((0 : ℝ) > clamped_max (-1) (convert_to_physical (20 - 0) 10) →
      adjusted_min 0 (clamped_max (-1) (convert_to_physical (20 - 0) 10)) 1 =
        clamped_max (-1) (convert_to_physical (20 - 0) 10) - 1)) :=
  ⟨⟨by norm_num, by norm_num, by norm_num⟩,
    c7_actionspace 20 0 10 0 (-1) 1 (by norm_num) (by norm_num) (by norm_num)⟩

/-- Claim C10: in the final fraction, the physical dose and tumor BED
returned by `min_oar_bed` depend only on `tumor_goal`,
`accumulated_tumor_dose`, `abt`, `min_dose`, `max_dose` and the dose step:
two calls agreeing on these (but differing arbitrarily in `alpha`, `beta`,
`fixed_prob`, `fixed_mean`, `fixed_std`, the sparing-factor history and the
remaining settings) return identical physical dose and tumor BED; the OAR
BED additionally depends only on `abn` and the last observed sparing
factor. -/
theorem c10_noninterference (k₁ k₂ : OarKeys) (s₁ s₂ : OarSets)
    (hgoal : k₁.tumor_goal = k₂.tumor_goal)
    (hacc : k₁.accumulated_tumor_dose = k₂.accumulated_tumor_dose)
    (habt : k₁.abt = k₂.abt)
    (hmin : k₁.min_dose = k₂.min_dose)
    (hmax : k₁.max_dose = k₂.max_dose)
    (hstep : s₁.dose_stepsize = s₂.dose_stepsize) :
    (min_oar_bed_final k₁ s₁).1 = (min_oar_bed_final k₂ s₂).1 ∧
    (min_oar_bed_final k₁ s₁).2.1 = (min_oar_bed_final k₂ s₂).2.1 ∧
    (k₁.abn = k₂.abn →
      k₁.sparing_factors_public.getLastD 0 = k₂.sparing_factors_public.getLastD 0 →
      (min_oar_bed_final k₁ s₁).2.2 = (min_oar_bed_final k₂ s₂).2.2) := by
  unfold min_oar_bed_final
  rw [hgoal, hacc, habt, hmin, hmax, hstep]
  refine ⟨rfl, rfl, ?_⟩
  intro habn hsf
  rw [habn, hsf]

theorem c10_noninterference_witness :
    ((OarKeys.mk 5 5 0 [1, 9 / 10] 1 2 72 10 3 0 (223 / 10) false 0 0).tumor_goal =
      (OarKeys.mk 5 5 0 [8 / 10, 11 / 10, 7 / 10] 7 9 72 10 3 0 (223 / 10) true 1
        (5 / 100)).tumor_goal) ∧
    ((min_oar_bed_final (OarKeys.mk 5 5 0 [1, 9 / 10] 1 2 72 10 3 0 (223 / 10) false 0 0)
        (OarSets.mk 1 0 (13 / 10) (1 / 100) (1 / 100000) 1000000)).1 =
      (min_oar_bed_final
        (OarKeys.mk 5 5 0 [8 / 10, 11 / 10, 7 / 10] 7 9 72 10 3 0 (223 / 10) true 1 (5 / 100))
        (OarSets.mk 1 1 (13 / 10) (2 / 100) (1 / 1000) 5000)).1) :=
  ⟨rfl,
    (c10_noninterference
      (OarKeys.mk 5 5 0 [1, 9 / 10] 1 2 72 10 3 0 (223 / 10) false 0 0)
      (OarKeys.mk 5 5 0 [8 / 10, 11 / 10, 7 / 10] 7 9 72 10 3 0 (223 / 10) true 1 (5 / 100))
      (OarSets.mk 1 0 (13 / 10) (1 / 100) (1 / 100000) 1000000)
      (OarSets.mk 1 1 (13 / 10) (2 / 100) (1 / 1000) 5000)
      rfl rfl rfl rfl rfl rfl).1⟩
